import Mathlib

set_option maxHeartbeats 1000000

/-
Verification development for the weather-analysis pipeline (analysis.py of the
OpenWeatherMap project).  The pipeline operates on in-memory tables of
observations (city, timestamp, temperature, season).  We embed the pipeline
shallowly:

* float64 values that can be NaN are modelled by `EFloat` (an exact rational
  or NaN); rounding, overflow and infinities are out of scope, and IEEE
  comparison semantics (every comparison with NaN is false, arithmetic with
  NaN yields NaN) are modelled explicitly;
* a dataframe is a `List` of typed rows; each pipeline stage has its own row
  type, mirroring the column schema the source stage reads and writes;
* `pandas.rolling(window=w)` with an integer `w` (as in the source, which
  passes `window=window_days`) is a fixed row-count window whose
  `min_periods` defaults to `w`: position `j` gets NaN when fewer than `w`
  observations exist up to it, otherwise the aggregate of the trailing `w`
  observations; `.std()` uses ddof = 1 and is NaN as well when the window
  holds fewer than 2 observations;
* standard deviations: the source stores the square root of the sample
  variance.  The square root of a rational is not rational, so the model
  stores the sample variance itself in the std columns.  Every property
  below that involves a std column concerns only (a) which window the value
  is computed from, (b) whether it is NaN, or (c) treats the column as an
  opaque input, and all of these are invariant under taking square roots of
  computed values, so the representation is faithful for everything stated.
* `sort_values(["city", "timestamp"])` is modelled by a deterministic stable
  insertion sort on the lexicographic (city, timestamp) key.
-/

/-- A float64 cell value: NaN or an exact rational. -/
inductive EFloat where
  | nan : EFloat
  | val (q : ℚ) : EFloat
deriving DecidableEq, Repr

namespace EFloat

/-- IEEE addition: NaN poisons. -/
def add : EFloat → EFloat → EFloat
  | val a, val b => val (a + b)
  | _, _ => nan

/-- IEEE subtraction: NaN poisons. -/
def sub : EFloat → EFloat → EFloat
  | val a, val b => val (a - b)
  | _, _ => nan

/-- IEEE multiplication: NaN poisons. -/
def mul : EFloat → EFloat → EFloat
  | val a, val b => val (a * b)
  | _, _ => nan

/-- IEEE `<`: any comparison involving NaN is false. -/
def ltB : EFloat → EFloat → Bool
  | val a, val b => decide (a < b)
  | _, _ => false

/-- IEEE `<=`: any comparison involving NaN is false. -/
def leB : EFloat → EFloat → Bool
  | val a, val b => decide (a ≤ b)
  | _, _ => false

/-- IEEE `>`. -/
def gtB (a b : EFloat) : Bool := ltB b a

/-- IEEE `==`: NaN equals nothing, not even itself. -/
def eqB : EFloat → EFloat → Bool
  | val a, val b => decide (a = b)
  | _, _ => false

/-- Model of `numpy.isnan`. -/
def isNan : EFloat → Bool
  | nan => true
  | val _ => false

end EFloat

/-- One observation row as produced by the loader: the columns the pipeline
stages read.  Timestamps are at day granularity, modelled as integers. -/
structure Row where
  city : String
  timestamp : ℤ
  temperature : ℚ
  season : String
deriving DecidableEq, Repr

/-- Arithmetic mean of a list of rationals (0 on the empty list, which the
pipeline never takes a mean of). -/
def qmean (xs : List ℚ) : ℚ := xs.sum / xs.length

/-- Sample variance, denominator n - 1.  The source's `.std()` is the square
root of this. -/
def sampleVar (xs : List ℚ) : ℚ :=
  (xs.map (fun x => (x - qmean xs) ^ 2)).sum / ((xs.length : ℚ) - 1)

/-- The trailing `w`-row window ending at position `j`: the last
`min (j+1) w` elements among the first `j+1`. -/
def windowAt (w : ℕ) (xs : List ℚ) (j : ℕ) : List ℚ :=
  (xs.take (j + 1)).drop (j + 1 - w)

/-- `rolling(window=w).mean()` at position `j` of a series: NaN while fewer
than `w` observations exist (min_periods defaults to the window size for an
integer window), else the mean of the trailing `w` observations. -/
def rollingMeanAt (w : ℕ) (xs : List ℚ) (j : ℕ) : EFloat :=
  if j + 1 < w then .nan else .val (qmean (windowAt w xs j))

/-- `rolling(window=w).std()` at position `j`: NaN while fewer than `w`
observations exist or when the window holds fewer than 2 observations
(ddof = 1); else the sample standard deviation of the trailing `w`
observations, stored as its square (the sample variance). -/
def rollingStdAt (w : ℕ) (xs : List ℚ) (j : ℕ) : EFloat :=
  if j + 1 < w ∨ w < 2 then .nan else .val (sampleVar (windowAt w xs j))

/-- The whole `rolling(window=w).mean()` series of a temperature series. -/
def rollingMeanList (w : ℕ) (xs : List ℚ) : List EFloat :=
  (List.range xs.length).map (rollingMeanAt w xs)

/-- The whole `rolling(window=w).std()` series of a temperature series. -/
def rollingStdList (w : ℕ) (xs : List ℚ) : List EFloat :=
  (List.range xs.length).map (rollingStdAt w xs)

/-- The sort key of `sort_values(["city", "timestamp"])`: lexicographic on
(city, timestamp). -/
def rowLe (a b : Row) : Prop :=
  a.city < b.city ∨ (a.city = b.city ∧ a.timestamp ≤ b.timestamp)

instance : DecidableRel rowLe := fun a b =>
  inferInstanceAs (Decidable (a.city < b.city ∨ (a.city = b.city ∧ a.timestamp ≤ b.timestamp)))

instance : IsTotal Row rowLe := by
  constructor
  intro a b
  rcases lt_trichotomy a.city b.city with h | h | h
  · exact Or.inl (Or.inl h)
  · rcases le_total a.timestamp b.timestamp with ht | ht
    · exact Or.inl (Or.inr ⟨h, ht⟩)
    · exact Or.inr (Or.inr ⟨h.symm, ht⟩)
  · exact Or.inr (Or.inl h)

instance : IsTrans Row rowLe := by
  constructor
  intro a b c hab hbc
  rcases hab with h1 | ⟨h1, t1⟩
  · rcases hbc with h2 | ⟨h2, _⟩
    · exact Or.inl (h1.trans h2)
    · exact Or.inl (h2 ▸ h1)
  · rcases hbc with h2 | ⟨h2, t2⟩
    · exact Or.inl (h1 ▸ h2)
    · exact Or.inr ⟨h1.trans h2, t1.trans t2⟩

/-- Model of `df.sort_values(["city", "timestamp"])` (stable). -/
def sortDf (df : List Row) : List Row := List.insertionSort rowLe df

/-- Model of `pandas.Series.unique()`: distinct values in order of first
appearance. -/
def uniqueFirst {α : Type} [DecidableEq α] : List α → List α
  | [] => []
  | a :: t => a :: uniqueFirst (t.filter (fun x => x ≠ a))
termination_by l => l.length
decreasing_by
  simp only [List.length_cons]
  exact Nat.lt_succ_of_le (List.length_filter_le _ _)

/-- The rows of one city, in order: `df[df["city"] == c]`. -/
def cityRows (l : List Row) (c : String) : List Row :=
  l.filter (fun r => r.city = c)

/-- A row together with its rolling statistics. -/
structure RollingRow extends Row where
  rolling_mean : EFloat
  rolling_std : EFloat
deriving DecidableEq, Repr

/-- Attach a (mean, std) pair to a row. -/
def mkRolling (r : Row) (ms : EFloat × EFloat) : RollingRow :=
  { toRow := r, rolling_mean := ms.1, rolling_std := ms.2 }

/-- Model of `add_rolling_stats` (analysis.py): sort by (city, timestamp),
iterate over `df["city"].unique()`, compute each city's rolling mean/std
series separately, concatenate the per-city series in city order, and assign
the concatenated series positionally onto the sorted frame. -/
def add_rolling_stats (df : List Row) (window_days : ℕ := 30) : List RollingRow :=
  let sorted := sortDf df
  let cities := uniqueFirst (sorted.map (fun r => r.city))
  let means := cities.flatMap
    (fun c => rollingMeanList window_days ((cityRows sorted c).map (fun r => r.temperature)))
  let stds := cities.flatMap
    (fun c => rollingStdList window_days ((cityRows sorted c).map (fun r => r.temperature)))
  List.zipWith mkRolling sorted (means.zip stds)

/-- The per-city computation of `add_rolling_stats`: one city's rows zipped
with that city's rolling series. -/
def processCity (w : ℕ) (rows : List Row) : List RollingRow :=
  List.zipWith mkRolling rows
    ((rollingMeanList w (rows.map (fun r => r.temperature))).zip
      (rollingStdList w (rows.map (fun r => r.temperature))))

/-- One aggregate row of the `groupby(["city", "season"])` table: a (city,
season) key with the group's temperature mean and sample standard deviation
(std stored as the variance, see the header comment). -/
structure SeasonStat where
  city : String
  season : String
  season_mean : EFloat
  season_std : EFloat
deriving DecidableEq, Repr

/-- Group mean of `groupby.agg(season_mean="mean")`; groups are nonempty by
construction. -/
def groupMean (grp : List Row) : EFloat := .val (qmean (grp.map (fun r => r.temperature)))

/-- Group sample standard deviation of `groupby.agg(season_std="std")`:
NaN for a singleton group (ddof = 1), else stored as the variance. -/
def groupStd (grp : List Row) : EFloat :=
  if grp.length < 2 then .nan else .val (sampleVar (grp.map (fun r => r.temperature)))

/-- Model of the `season_stats` aggregate table built inside
`add_season_stats`: one row per distinct (city, season) key present in the
input, carrying that group's mean/std.  (pandas sorts the group keys; the
key order of this table is irrelevant to every property below because the
keys are distinct, so the model keeps first-appearance order.) -/
def season_stats (df : List Row) : List SeasonStat :=
  (uniqueFirst (df.map (fun r => (r.city, r.season)))).map
    (fun k =>
      let grp := df.filter (fun r => r.city = k.1 ∧ r.season = k.2)
      { city := k.1, season := k.2, season_mean := groupMean grp, season_std := groupStd grp })

/-- A row together with its seasonal statistics. -/
structure SeasonRow extends Row where
  season_mean : EFloat
  season_std : EFloat
deriving DecidableEq, Repr

/-- Model of `add_season_stats` (analysis.py): left-merge of the aggregate
table onto the input on (city, season).  `how="left"` preserves the left
frame's row order, and a left row with no match gets NaN columns. -/
def add_season_stats (df : List Row) : List SeasonRow :=
  let stats := season_stats df
  df.map (fun r =>
    match stats.find? (fun e => e.city = r.city ∧ e.season = r.season) with
    | some e => { toRow := r, season_mean := e.season_mean, season_std := e.season_std }
    | none => { toRow := r, season_mean := .nan, season_std := .nan })

/-- A row carrying all feature columns `mark_anomalies` reads: the input
schema of the anomaly marker. -/
structure FeatRow extends Row where
  rolling_mean : EFloat
  rolling_std : EFloat
  season_mean : EFloat
  season_std : EFloat
deriving DecidableEq, Repr

/-- A feature row with the two anomaly flags appended. -/
structure MarkedRow extends FeatRow where
  is_anomaly_season : Bool
  is_anomaly_rolling : Bool
deriving DecidableEq, Repr

/-- Model of `mark_anomalies` (analysis.py): works on a copy, flags a row as
seasonal anomaly when its temperature exceeds mean + z*std or falls below
mean - z*std, likewise for the rolling columns when `use_rolling`, else the
rolling flag is uniformly false.  Comparisons follow IEEE semantics: a NaN
operand makes both comparisons false. -/
def mark_anomalies (df : List FeatRow) (z_threshold : ℚ := 2) (use_rolling : Bool := true) :
    List MarkedRow :=
  df.map (fun r =>
    { toFeatRow := r
      is_anomaly_season :=
        EFloat.gtB (.val r.temperature)
            (EFloat.add r.season_mean (EFloat.mul (.val z_threshold) r.season_std))
          || EFloat.ltB (.val r.temperature)
            (EFloat.sub r.season_mean (EFloat.mul (.val z_threshold) r.season_std))
      is_anomaly_rolling :=
        if use_rolling then
          EFloat.gtB (.val r.temperature)
              (EFloat.add r.rolling_mean (EFloat.mul (.val z_threshold) r.rolling_std))
            || EFloat.ltB (.val r.temperature)
              (EFloat.sub r.rolling_mean (EFloat.mul (.val z_threshold) r.rolling_std))
        else false })

/-- Model of `current_season_mean_std` (analysis.py): filter the frame to the
given (city, season); if the subset is empty return (NaN, NaN), else the
`season_mean`/`season_std` of its first row (`iloc[0]`). -/
def current_season_mean_std (df : List SeasonRow) (city season : String) :
    EFloat × EFloat :=
  match df.filter (fun r => r.city = city ∧ r.season = season) with
  | [] => (.nan, .nan)
  | r :: _ => (r.season_mean, r.season_std)

/-- Model of `is_temp_normal` (analysis.py): true when mean or std is NaN or
std equals 0 exactly; else the chained comparison
mean - z*std <= temp <= mean + z*std under IEEE semantics. -/
def is_temp_normal (temp mean std : EFloat) (z_threshold : ℚ := 2) : Bool :=
  if EFloat.isNan mean || EFloat.isNan std || EFloat.eqB std (.val 0) then true
  else
    EFloat.leB (EFloat.sub mean (EFloat.mul (.val z_threshold) std)) temp
      && EFloat.leB temp (EFloat.add mean (EFloat.mul (.val z_threshold) std))

/-
Loader model.  `load_data` receives whatever `pandas.read_csv` produced: a
header and a rectangular grid of cells.  A cell is abstracted by what the
pandas parsers can make of it: `date` for text `pd.to_datetime` parses
(abstracted by the timestamp it denotes, which carries its `.month`
attribute as `pd.Timestamp` does), `num` for numeric cells, `text` for
everything else.  `load_data` then reads exactly one column, `timestamp`
(raising a `KeyError` when it is absent, a parser error when a cell does not
parse), and appends a derived `season` column when none exists.  It never
reads the `city` or `temperature` columns.  The index-reset steps of the
source are identity on this model (a `List` has no index to reset).
-/

/-- A parsed timestamp (`pd.Timestamp`): its day number and its `.month`
attribute (months 1..12, stored as `Fin 12` = month - 1). -/
structure Ts where
  day : ℤ
  month : Fin 12
deriving DecidableEq, Repr

/-- A raw cell as typed by `read_csv`. -/
inductive Cell where
  | date (t : Ts)
  | num (q : ℚ)
  | text (s : String)
deriving DecidableEq, Repr

/-- Model of `pd.to_datetime` on one cell: succeeds exactly on
datetime-parseable text. -/
def toDatetime : Cell → Option Ts
  | .date t => some t
  | _ => none

/-- A raw frame as produced by `read_csv`. -/
structure Frame where
  header : List String
  rows : List (List Cell)
deriving DecidableEq, Repr

/-- The errors `load_data` can raise: a `KeyError` from indexing a missing
column, or a parser error from `pd.to_datetime`.  (No `MalformedInputError`
class exists anywhere in the source.) -/
inductive LoadError where
  | keyError (col : String)
  | parseError
deriving DecidableEq, Repr

/-- The `MONTH_TO_SEASON` dictionary of analysis.py, keyed by month number
1..12. -/
def MONTH_TO_SEASON : ℕ → Option String
  | 12 => some "winter"
  | 1 => some "winter"
  | 2 => some "winter"
  | 3 => some "spring"
  | 4 => some "spring"
  | 5 => some "spring"
  | 6 => some "summer"
  | 7 => some "summer"
  | 8 => some "summer"
  | 9 => some "autumn"
  | 10 => some "autumn"
  | 11 => some "autumn"
  | _ => none

theorem month_to_season_total (m : Fin 12) : (MONTH_TO_SEASON (m.val + 1)).isSome := by
  fin_cases m <;> rfl

/-- Model of `season_from_timestamp` (analysis.py): look the month up in
`MONTH_TO_SEASON`; the lookup always succeeds because a `pd.Timestamp` month
is always in 1..12. -/
def season_from_timestamp (t : Ts) : String :=
  (MONTH_TO_SEASON (t.month.val + 1)).get (month_to_season_total t.month)

/-- Model of `load_data` (analysis.py): index the `timestamp` column
(`KeyError` when absent), parse every cell of it with `pd.to_datetime`
(parser error when any cell fails), write the parsed column back, and append
a derived `season` column when the header has none.  The `city` and
`temperature` columns are never touched. -/
def load_data (f : Frame) : Except LoadError Frame :=
  match f.header.findIdx? (fun c => c = "timestamp") with
  | none => .error (.keyError "timestamp")
  | some j =>
    match f.rows.mapM (fun row => toDatetime (row.getD j (.text ""))) with
    | none => .error .parseError
    | some tss =>
      if "season" ∈ f.header then
        .ok ⟨f.header, List.zipWith (fun row t => row.set j (.date t)) f.rows tss⟩
      else
        .ok ⟨f.header ++ ["season"],
          List.zipWith (fun row t => row.set j (.date t) ++ [.text (season_from_timestamp t)])
            f.rows tss⟩

/-- Modelled from the spec (section 4.2): the window the spec prescribes for
row `i` of a sorted frame — every same-city observation whose timestamp lies
in the inclusive interval [timestamp(i) - (window_days - 1) days,
timestamp(i)].  This definition follows the SPEC's words; the source is
compared against it. -/
def specTimeWindow (rows : List Row) (w : ℕ) (i : ℕ) (h : i < rows.length) : List Row :=
  rows.filter (fun o =>
    o.city = (rows.get ⟨i, h⟩).city ∧
      (rows.get ⟨i, h⟩).timestamp - ((w : ℤ) - 1) ≤ o.timestamp ∧
      o.timestamp ≤ (rows.get ⟨i, h⟩).timestamp)

/-- The count-based window rule of the source, expressed on a list of
observations: NaN while fewer than `w` observations, else the mean of their
temperatures. -/
def meanOfObs (w : ℕ) (obs : List Row) : EFloat :=
  if obs.length < w then .nan else .val (qmean (obs.map (fun o => o.temperature)))

/-- Count-based std rule of the source on a list of observations: NaN while
fewer than `w` observations or fewer than 2 observations, else their sample
standard deviation (stored as the variance). -/
def stdOfObs (w : ℕ) (obs : List Row) : EFloat :=
  if obs.length < w ∨ obs.length < 2 then .nan
  else .val (sampleVar (obs.map (fun o => o.temperature)))

theorem uniqueFirst_nil {α : Type} [DecidableEq α] : uniqueFirst ([] : List α) = [] := by
  rw [uniqueFirst]

theorem uniqueFirst_cons {α : Type} [DecidableEq α] (a : α) (t : List α) :
    uniqueFirst (a :: t) = a :: uniqueFirst (t.filter (fun x => x ≠ a)) := by
  rw [uniqueFirst]

theorem mem_uniqueFirst {α : Type} [DecidableEq α] :
    ∀ (l : List α) (x : α), x ∈ uniqueFirst l ↔ x ∈ l := by
  intro l
  induction l using uniqueFirst.induct with
  | case1 => intro x; rw [uniqueFirst_nil]
  | case2 a t ih =>
    intro x
    rw [uniqueFirst_cons]
    by_cases hx : x = a
    · subst hx; simp
    · simp only [List.mem_cons, ih, List.mem_filter]
      simp [hx]

theorem nodup_uniqueFirst {α : Type} [DecidableEq α] (l : List α) : (uniqueFirst l).Nodup := by
  induction l using uniqueFirst.induct with
  | case1 => rw [uniqueFirst_nil]; exact List.nodup_nil
  | case2 a t ih =>
    rw [uniqueFirst_cons]
    refine List.Nodup.cons ?_ ih
    intro hmem
    rw [mem_uniqueFirst] at hmem
    rcases List.mem_filter.mp hmem with ⟨_, hne⟩
    simp at hne

theorem sortDf_sorted (df : List Row) : List.Sorted rowLe (sortDf df) :=
  List.sorted_insertionSort rowLe df

theorem sortDf_perm (df : List Row) : (sortDf df).Perm df :=
  List.perm_insertionSort rowLe df

theorem sortDf_cityPairwise (df : List Row) :
    (sortDf df).Pairwise (fun a b => a.city ≤ b.city) := by
  refine List.Pairwise.imp ?_ (sortDf_sorted df)
  intro a b hab
  rcases hab with h | ⟨h, _⟩
  · exact le_of_lt h
  · exact le_of_eq h

theorem filter_city_split (c : String) :
    ∀ l : List Row, (∀ x ∈ l, c ≤ x.city) →
      l.Pairwise (fun a b => a.city ≤ b.city) →
      l.filter (fun r => r.city = c) ++ l.filter (fun r => ¬ r.city = c) = l := by
  intro l
  induction l with
  | nil => intro _ _; rfl
  | cons a t ih =>
    intro hle hp
    rcases List.pairwise_cons.mp hp with ⟨hhead, htail⟩
    by_cases hc : a.city = c
    · rw [List.filter_cons, List.filter_cons]
      rw [if_pos (by simp [hc]), if_neg (by simp [hc])]
      rw [List.cons_append, ih (fun x hx => hle x (List.mem_cons_of_mem a hx)) htail]
    · have hlt : c < a.city := lt_of_le_of_ne (hle a (List.mem_cons_self a t)) (fun h => hc h.symm)
      have h1 : List.filter (fun r => r.city = c) (a :: t) = [] := by
        rw [List.filter_eq_nil_iff]
        intro x hx
        rcases List.mem_cons.mp hx with h | h
        · subst h; simp [hc]
        · have : c < x.city := lt_of_lt_of_le hlt (hhead x h)
          simp [ne_of_gt this]
      have h2 : List.filter (fun r => ¬ r.city = c) (a :: t) = a :: t := by
        rw [List.filter_eq_self]
        intro x hx
        rcases List.mem_cons.mp hx with h | h
        · subst h; simp [hc]
        · have : c < x.city := lt_of_lt_of_le hlt (hhead x h)
          simp [ne_of_gt this]
      rw [h1, h2, List.nil_append]

theorem flatMap_congr_mem {α β : Type} (cs : List α) (f g : α → List β)
    (h : ∀ c ∈ cs, f c = g c) : cs.flatMap f = cs.flatMap g := by
  induction cs with
  | nil => rfl
  | cons a t ih =>
    rw [List.flatMap_cons, List.flatMap_cons, h a (List.mem_cons_self a t),
      ih (fun c hc => h c (List.mem_cons_of_mem a hc))]

theorem flatMap_cityRows_aux :
    ∀ (n : ℕ) (l : List Row), l.length ≤ n →
      l.Pairwise (fun a b => a.city ≤ b.city) →
      (uniqueFirst (l.map (fun r => r.city))).flatMap (fun c => cityRows l c) = l := by
  intro n
  induction n with
  | zero =>
    intro l hl _
    cases l with
    | nil => rw [List.map_nil, uniqueFirst_nil]; rfl
    | cons a t => simp at hl
  | succ n ih =>
    intro l hl hp
    cases l with
    | nil => rw [List.map_nil, uniqueFirst_nil]; rfl
    | cons a t =>
      rcases List.pairwise_cons.mp hp with ⟨hhead, htail⟩
      rw [List.map_cons, uniqueFirst_cons, List.flatMap_cons]
      have hblock : cityRows (a :: t) a.city = a :: t.filter (fun r => r.city = a.city) := by
        unfold cityRows
        rw [List.filter_cons, if_pos (by simp)]
      have hmapfilter : (t.map (fun r => r.city)).filter (fun x => x ≠ a.city)
          = (t.filter (fun r => ¬ r.city = a.city)).map (fun r => r.city) := by
        rw [List.filter_map]
        refine congrArg _ (List.filter_congr ?_)
        intro x _
        simp [Function.comp]
      have hcongr : ∀ c ∈ uniqueFirst ((t.filter (fun r => ¬ r.city = a.city)).map
          (fun r => r.city)),
          cityRows (a :: t) c = cityRows (t.filter (fun r => ¬ r.city = a.city)) c := by
        intro c hc
        rw [mem_uniqueFirst] at hc
        rcases List.mem_map.mp hc with ⟨r, hr, hrc⟩
        have hcne : ¬ c = a.city := by
          rcases List.mem_filter.mp hr with ⟨_, hne⟩
          rw [← hrc]
          simpa using hne
        unfold cityRows
        rw [List.filter_cons, if_neg (by simp; exact fun h => hcne h.symm)]
        rw [List.filter_filter]
        refine (List.filter_congr ?_).symm
        intro x _
        by_cases hx : x.city = c
        · simp [hx, hcne]
        · simp [hx]
      rw [hmapfilter, hblock, flatMap_congr_mem _ _ _ hcongr,
        ih (t.filter (fun r => ¬ r.city = a.city))
          (le_trans (List.length_filter_le _ _)
            (by simp only [List.length_cons] at hl; omega))
          (List.Pairwise.sublist (List.filter_sublist t) htail)]
      rw [List.cons_append,
        filter_city_split a.city t (fun x hx => hhead x hx) htail]

/-- Reconstruction: a frame sorted by (city, timestamp) is exactly the
concatenation of its per-city blocks, in first-appearance (= sorted) city
order.  This is the alignment fact the positional assignment in
`add_rolling_stats` relies on. -/
theorem flatMap_cityRows (l : List Row)
    (hp : l.Pairwise (fun a b => a.city ≤ b.city)) :
    (uniqueFirst (l.map (fun r => r.city))).flatMap (fun c => cityRows l c) = l :=
  flatMap_cityRows_aux l.length l (le_refl _) hp

theorem length_rollingMeanList (w : ℕ) (xs : List ℚ) :
    (rollingMeanList w xs).length = xs.length := by
  simp [rollingMeanList]

theorem length_rollingStdList (w : ℕ) (xs : List ℚ) :
    (rollingStdList w xs).length = xs.length := by
  simp [rollingStdList]

theorem zipWith_zip_flatMap (cs : List String) (F : String → List Row)
    (M S : String → List EFloat)
    (hM : ∀ c, (M c).length = (F c).length) (hS : ∀ c, (S c).length = (F c).length) :
    List.zipWith mkRolling (cs.flatMap F) ((cs.flatMap M).zip (cs.flatMap S)) =
      cs.flatMap (fun c => List.zipWith mkRolling (F c) ((M c).zip (S c))) := by
  induction cs with
  | nil => rfl
  | cons c cs ih =>
    rw [List.flatMap_cons, List.flatMap_cons, List.flatMap_cons,
      List.zip_append (by rw [hM, hS]),
      List.zipWith_append _ _ _ _ _
        (by rw [List.length_zip, hM c, hS c, min_self]),
      ih, List.flatMap_cons]

theorem add_rolling_stats_def (df : List Row) (w : ℕ) :
    add_rolling_stats df w =
      List.zipWith mkRolling (sortDf df)
        (((uniqueFirst ((sortDf df).map (fun r => r.city))).flatMap
            (fun c => rollingMeanList w ((cityRows (sortDf df) c).map
              (fun r => r.temperature)))).zip
          ((uniqueFirst ((sortDf df).map (fun r => r.city))).flatMap
            (fun c => rollingStdList w ((cityRows (sortDf df) c).map
              (fun r => r.temperature))))) := rfl

/-- Structural decomposition of `add_rolling_stats`: the output is the
concatenation, over the cities in order, of each city's rows zipped with
that city's own rolling series.  This is where the positional alignment of
the source (extend per-city lists, then assign onto the sorted frame) is
proved correct. -/
theorem add_rolling_stats_eq_flatMap (df : List Row) (w : ℕ) :
    add_rolling_stats df w =
      (uniqueFirst ((sortDf df).map (fun r => r.city))).flatMap
        (fun c => processCity w (cityRows (sortDf df) c)) := by
  rw [add_rolling_stats_def]
  have h := zipWith_zip_flatMap (uniqueFirst ((sortDf df).map (fun r => r.city)))
    (fun c => cityRows (sortDf df) c)
    (fun c => rollingMeanList w ((cityRows (sortDf df) c).map (fun r => r.temperature)))
    (fun c => rollingStdList w ((cityRows (sortDf df) c).map (fun r => r.temperature)))
    (fun c => by rw [length_rollingMeanList, List.length_map])
    (fun c => by rw [length_rollingStdList, List.length_map])
  rw [flatMap_cityRows (sortDf df) (sortDf_cityPairwise df)] at h
  exact h

theorem length_processCity (w : ℕ) (rows : List Row) :
    (processCity w rows).length = rows.length := by
  simp [processCity, length_rollingMeanList, length_rollingStdList]

theorem processCity_get (w : ℕ) (rows : List Row) (j : ℕ) (hj : j < rows.length) :
    (processCity w rows).get ⟨j, by rw [length_processCity]; exact hj⟩ =
      mkRolling (rows.get ⟨j, hj⟩)
        (rollingMeanAt w (rows.map (fun r => r.temperature)) j,
         rollingStdAt w (rows.map (fun r => r.temperature)) j) := by
  simp only [List.get_eq_getElem, processCity, List.getElem_zipWith, List.getElem_zip,
    rollingMeanList, rollingStdList, List.getElem_map, List.getElem_range]

theorem mem_processCity (w : ℕ) (rows : List Row) (r : RollingRow)
    (hr : r ∈ processCity w rows) :
    ∃ j : ℕ, ∃ hj : j < rows.length,
      r = mkRolling (rows.get ⟨j, hj⟩)
        (rollingMeanAt w (rows.map (fun x => x.temperature)) j,
         rollingStdAt w (rows.map (fun x => x.temperature)) j) := by
  rcases List.mem_iff_getElem.mp hr with ⟨j, hj, hEq⟩
  have hj2 : j < rows.length := by rwa [length_processCity] at hj
  refine ⟨j, hj2, ?_⟩
  rw [← hEq, ← List.get_eq_getElem (processCity w rows) ⟨j, hj⟩]
  exact processCity_get w rows j hj2

theorem length_window (w : ℕ) (rows : List Row) (j : ℕ) (hj : j < rows.length) :
    ((rows.take (j + 1)).drop (j + 1 - w)).length = (j + 1) - (j + 1 - w) := by
  rw [List.length_drop, List.length_take]
  omega

theorem rollingMeanAt_eq_meanOfObs (w : ℕ) (rows : List Row) (j : ℕ) (hj : j < rows.length) :
    rollingMeanAt w (rows.map (fun r => r.temperature)) j
      = meanOfObs w ((rows.take (j + 1)).drop (j + 1 - w)) := by
  have hlen := length_window w rows j hj
  unfold rollingMeanAt meanOfObs
  by_cases h : j + 1 < w
  · rw [if_pos h, if_pos (by omega)]
  · rw [if_neg h, if_neg (by omega)]
    unfold windowAt
    rw [List.map_drop, List.map_take]

theorem rollingStdAt_eq_stdOfObs (w : ℕ) (rows : List Row) (j : ℕ) (hj : j < rows.length) :
    rollingStdAt w (rows.map (fun r => r.temperature)) j
      = stdOfObs w ((rows.take (j + 1)).drop (j + 1 - w)) := by
  have hlen := length_window w rows j hj
  unfold rollingStdAt stdOfObs
  by_cases h : j + 1 < w ∨ w < 2
  · rw [if_pos h, if_pos (by omega)]
  · rw [if_neg h, if_neg (by omega)]
    unfold windowAt
    rw [List.map_drop, List.map_take]

theorem mem_cityRows (l : List Row) (c : String) (r : Row) (hr : r ∈ cityRows l c) :
    r ∈ l ∧ r.city = c := by
  rcases List.mem_filter.mp hr with ⟨h1, h2⟩
  exact ⟨h1, by simpa using h2⟩

theorem flatMap_get_decomp {β : Type} (cs : List String) (G : String → List β) :
    ∀ (i : ℕ) (hi : i < (cs.flatMap G).length),
      ∃ c ∈ cs, ∃ j : ℕ, ∃ hj : j < (G c).length,
        (cs.flatMap G).get ⟨i, hi⟩ = (G c).get ⟨j, hj⟩ := by
  induction cs with
  | nil => intro i hi; simp at hi
  | cons c cs ih =>
    intro i hi
    have hsplit : (c :: cs).flatMap G = G c ++ cs.flatMap G := List.flatMap_cons c cs G
    have hi' : i < (G c ++ cs.flatMap G).length := by rw [← hsplit]; exact hi
    have hstep : ((c :: cs).flatMap G).get ⟨i, hi⟩ = (G c ++ cs.flatMap G).get ⟨i, hi'⟩ := by
      rw [List.get_eq_getElem, List.get_eq_getElem]
      exact List.getElem_of_eq hsplit hi
    by_cases hlt : i < (G c).length
    · refine ⟨c, List.mem_cons_self c cs, i, hlt, ?_⟩
      rw [hstep, List.get_eq_getElem, List.get_eq_getElem]
      exact List.getElem_append_left hlt
    · have hge : (G c).length ≤ i := le_of_not_lt hlt
      have hi2 : i - (G c).length < (cs.flatMap G).length := by
        rw [hsplit, List.length_append] at hi
        omega
      rcases ih (i - (G c).length) hi2 with ⟨c2, hc2, j, hj, hEq⟩
      refine ⟨c2, List.mem_cons_of_mem _ hc2, j, hj, ?_⟩
      rw [hstep, ← hEq, List.get_eq_getElem, List.get_eq_getElem]
      exact List.getElem_append_right hge

theorem mem_processCity_city (w : ℕ) (l : List Row) (c : String) (r : RollingRow)
    (hr : r ∈ processCity w (cityRows l c)) : r.city = c := by
  rcases mem_processCity w (cityRows l c) r hr with ⟨j, hj, hEq⟩
  have hmem : (cityRows l c).get ⟨j, hj⟩ ∈ cityRows l c := List.get_mem _ _ hj
  have := (mem_cityRows l c _ hmem).2
  rw [hEq]
  exact this

theorem filter_flatMap_block (A : String) :
    ∀ (cs : List String), cs.Nodup →
      ∀ (G : String → List RollingRow),
        (∀ c, ∀ r ∈ G c, r.city = c) → (A ∉ cs → G A = []) →
        (cs.flatMap G).filter (fun r => r.city = A) = G A := by
  intro cs
  induction cs with
  | nil =>
    intro _ G _ hA
    exact (hA (List.not_mem_nil A)).symm
  | cons c cs ih =>
    intro hnd G hG hA
    rcases List.nodup_cons.mp hnd with ⟨hcn, hnd2⟩
    rw [List.flatMap_cons, List.filter_append]
    by_cases hcA : c = A
    · subst hcA
      have h1 : (G c).filter (fun r => r.city = c) = G c := by
        rw [List.filter_eq_self]
        intro r hr
        simp [hG c r hr]
      have h2 : (cs.flatMap G).filter (fun r => r.city = c) = [] := by
        rw [List.filter_eq_nil_iff]
        intro r hr
        rcases List.mem_flatMap.mp hr with ⟨c2, hc2, hrc2⟩
        have : r.city = c2 := hG c2 r hrc2
        simp [this]
        exact fun h => hcn (h ▸ hc2)
      rw [h1, h2, List.append_nil]
    · have h1 : (G c).filter (fun r => r.city = A) = [] := by
        rw [List.filter_eq_nil_iff]
        intro r hr
        simp [hG c r hr]
        exact fun h => hcA h
      rw [h1, List.nil_append]
      refine ih hnd2 G hG ?_
      intro hAcs
      exact hA (fun h => (List.mem_cons.mp h).elim (fun h2 => hcA h2.symm) hAcs)

theorem cityRows_empty_of_not_mem (l : List Row) (A : String)
    (h : A ∉ l.map (fun r => r.city)) : cityRows l A = [] := by
  unfold cityRows
  rw [List.filter_eq_nil_iff]
  intro r hr
  simp only [decide_eq_true_eq]
  intro hc
  exact h (List.mem_map.mpr ⟨r, hr, hc⟩)

/-- The city-`A` block of the output of `add_rolling_stats` is exactly the
per-city computation on city `A`'s sorted rows. -/
theorem add_rolling_filter_city (df : List Row) (w : ℕ) (A : String) :
    (add_rolling_stats df w).filter (fun r => r.city = A) =
      processCity w (cityRows (sortDf df) A) := by
  rw [add_rolling_stats_eq_flatMap]
  refine filter_flatMap_block A _ (nodup_uniqueFirst _) _
    (fun c r hr => mem_processCity_city w (sortDf df) c r hr) ?_
  intro hA
  rw [mem_uniqueFirst] at hA
  rw [cityRows_empty_of_not_mem (sortDf df) A hA]
  rfl

theorem orderedInsert_cons (a b : Row) (l : List Row) :
    List.orderedInsert rowLe a (b :: l) =
      if rowLe a b then a :: b :: l else b :: List.orderedInsert rowLe a l := rfl

theorem orderedInsert_of_forall_le (a : Row) :
    ∀ (l : List Row), (∀ x ∈ l, rowLe a x) →
      List.orderedInsert rowLe a l = a :: l := by
  intro l
  cases l with
  | nil => intro _; rfl
  | cons b t =>
    intro h
    rw [orderedInsert_cons, if_pos (h b (List.mem_cons_self b t))]

theorem orderedInsert_filter_of_neg {p : Row → Bool} {a : Row} (ha : ¬ p a = true) :
    ∀ l : List Row, (List.orderedInsert rowLe a l).filter p = l.filter p := by
  intro l
  induction l with
  | nil => simp [List.orderedInsert, List.filter_cons, ha]
  | cons b t ih =>
    rw [orderedInsert_cons]
    by_cases hab : rowLe a b
    · rw [if_pos hab, List.filter_cons, if_neg ha]
    · rw [if_neg hab, List.filter_cons, List.filter_cons, ih]

theorem orderedInsert_filter_of_pos {p : Row → Bool} {a : Row} (ha : p a = true) :
    ∀ l : List Row, List.Sorted rowLe l →
      (List.orderedInsert rowLe a l).filter p =
        List.orderedInsert rowLe a (l.filter p) := by
  intro l
  induction l with
  | nil => simp [List.orderedInsert, List.filter_cons, ha]
  | cons b t ih =>
    intro hs
    rcases List.pairwise_cons.mp hs with ⟨hhead, htail⟩
    rw [orderedInsert_cons]
    by_cases hab : rowLe a b
    · rw [if_pos hab, List.filter_cons, if_pos ha, List.filter_cons]
      by_cases hpb : p b = true
      · rw [if_pos hpb]
        refine (orderedInsert_of_forall_le a (b :: t.filter p) ?_).symm
        intro x hx
        rcases List.mem_cons.mp hx with h | h
        · subst h; exact hab
        · exact Trans.trans hab (hhead x (List.mem_of_mem_filter h))
      · rw [if_neg hpb]
        refine (orderedInsert_of_forall_le a (t.filter p) ?_).symm
        intro x hx
        exact Trans.trans hab (hhead x (List.mem_of_mem_filter hx))
    · rw [if_neg hab, List.filter_cons, List.filter_cons]
      by_cases hpb : p b = true
      · rw [if_pos hpb, if_pos hpb, orderedInsert_cons, if_neg hab, ih htail]
      · rw [if_neg hpb, if_neg hpb, ih htail]

/-- A stable sort commutes with filtering. -/
theorem sortDf_filter (p : Row → Bool) (l : List Row) :
    sortDf (l.filter p) = (sortDf l).filter p := by
  unfold sortDf
  induction l with
  | nil => rfl
  | cons a t ih =>
    rw [List.filter_cons]
    by_cases hpa : p a = true
    · rw [if_pos hpa]
      show List.orderedInsert rowLe a (List.insertionSort rowLe (t.filter p)) = _
      rw [ih]
      exact (orderedInsert_filter_of_pos hpa _ (List.sorted_insertionSort rowLe t)).symm
    · rw [if_neg hpa]
      show List.insertionSort rowLe (t.filter p) = _
      rw [ih]
      exact (orderedInsert_filter_of_neg hpa _).symm

/-- C1: for every input dataset and every output row of `add_rolling_stats`,
the rolling mean and rolling std of that row are computed from a window of
observations that all carry the row's own city (and all come from the input
dataset); no window ever includes an observation from another city. -/
theorem C1_rolling_no_cross_city (df : List Row) (w : ℕ) (r : RollingRow)
    (hr : r ∈ add_rolling_stats df w) :
    ∃ obs : List Row, (∀ o ∈ obs, o.city = r.city) ∧ (∀ o ∈ obs, o ∈ df) ∧
      r.rolling_mean = meanOfObs w obs ∧ r.rolling_std = stdOfObs w obs := by
  rw [add_rolling_stats_eq_flatMap] at hr
  rcases List.mem_flatMap.mp hr with ⟨c, hc, hrc⟩
  rcases mem_processCity w (cityRows (sortDf df) c) r hrc with ⟨j, hj, hEq⟩
  have hsub : (((cityRows (sortDf df) c).take (j + 1)).drop (j + 1 - w)).Sublist
      (cityRows (sortDf df) c) :=
    (List.drop_sublist _ _).trans (List.take_sublist _ _)
  have hrcity : r.city = c := by
    rw [hEq]
    exact (mem_cityRows _ c _ (List.get_mem _ _ hj)).2
  refine ⟨((cityRows (sortDf df) c).take (j + 1)).drop (j + 1 - w), ?_, ?_, ?_, ?_⟩
  · intro o ho
    rw [hrcity]
    exact (mem_cityRows _ c o (List.Sublist.mem ho hsub)).2
  · intro o ho
    exact ((sortDf_perm df).mem_iff).mp (mem_cityRows _ c o (List.Sublist.mem ho hsub)).1
  · rw [hEq]
    exact rollingMeanAt_eq_meanOfObs w _ j hj
  · rw [hEq]
    exact rollingStdAt_eq_stdOfObs w _ j hj

/-- Concrete dataset for the C1 witness. -/
def dfW1 : List Row := [⟨"A", 0, 10, "winter"⟩]

/-- Concrete output row for the C1 witness. -/
def rW1 : RollingRow := ⟨⟨"A", 0, 10, "winter"⟩, .val 10, .nan⟩

theorem C1_witness :
    ∃ obs : List Row, (∀ o ∈ obs, o.city = rW1.city) ∧ (∀ o ∈ obs, o ∈ dfW1) ∧
      rW1.rolling_mean = meanOfObs 1 obs ∧ rW1.rolling_std = stdOfObs 1 obs :=
  C1_rolling_no_cross_city dfW1 1 rW1 (by
    rw [add_rolling_stats_def]
    norm_num [sortDf, List.insertionSort, List.orderedInsert, uniqueFirst_cons, uniqueFirst_nil,
      cityRows, rollingMeanList, rollingStdList, List.range_succ, rollingMeanAt, rollingStdAt,
      windowAt, qmean, mkRolling, rW1, dfW1, rowLe])

/-- The seasonal anomaly formula of `mark_anomalies`: with a NaN mean or a
NaN std, both IEEE comparisons are false, so the flag is false. -/
theorem anomaly_flag_nan (t z : ℚ) (m s : EFloat) (h : s = .nan ∨ m = .nan) :
    (EFloat.gtB (.val t) (EFloat.add m (EFloat.mul (.val z) s))
      || EFloat.ltB (.val t) (EFloat.sub m (EFloat.mul (.val z) s))) = false := by
  rcases h with h | h
  · subst h; cases m <;> rfl
  · subst h; cases s <;> rfl

/-- C6: in the output of `mark_anomalies`, a row whose season_std is NaN (or
whose season_mean is NaN) is never flagged as a seasonal anomaly; the NaN
propagates to a false flag, never to an error. -/
theorem C6_nan_never_flags (df : List FeatRow) (z : ℚ) (ur : Bool)
    (m : MarkedRow) (hm : m ∈ mark_anomalies df z ur)
    (h : m.season_std = EFloat.nan ∨ m.season_mean = EFloat.nan) :
    m.is_anomaly_season = false := by
  rcases List.mem_map.mp hm with ⟨r, _, hEq⟩
  subst hEq
  exact anomaly_flag_nan r.temperature z r.season_mean r.season_std h

/-- Concrete frame for the C6 witness. -/
def dfW6 : List FeatRow := [⟨⟨"A", 0, 100, "winter"⟩, .nan, .nan, .val 3, .nan⟩]

/-- The single row of `mark_anomalies dfW6 2 true`. -/
def mW6 : MarkedRow :=
  { toFeatRow := ⟨⟨"A", 0, 100, "winter"⟩, .nan, .nan, .val 3, .nan⟩
    is_anomaly_season :=
      EFloat.gtB (.val 100) (EFloat.add (.val 3) (EFloat.mul (.val 2) .nan))
        || EFloat.ltB (.val 100) (EFloat.sub (.val 3) (EFloat.mul (.val 2) .nan))
    is_anomaly_rolling :=
      EFloat.gtB (.val 100) (EFloat.add .nan (EFloat.mul (.val 2) .nan))
        || EFloat.ltB (.val 100) (EFloat.sub .nan (EFloat.mul (.val 2) .nan)) }

theorem C6_witness : mW6.is_anomaly_season = false :=
  C6_nan_never_flags dfW6 2 true mW6
    (by simp [mark_anomalies, dfW6, mW6]) (Or.inl rfl)

/-- C7: `is_temp_normal` returns true whenever mean is NaN, std is NaN or std
equals 0 exactly; on finite inputs with a nonzero std it returns true exactly
when the temperature lies inside the inclusive band
[mean - z*std, mean + z*std]. -/
theorem C7_is_temp_normal_contract (t m s : EFloat) (z tq mq sq : ℚ) :
    ((m = .nan ∨ s = .nan ∨ s = .val 0) → is_temp_normal t m s z = true) ∧
    (sq ≠ 0 →
      (is_temp_normal (.val tq) (.val mq) (.val sq) z = true ↔
        (mq - z * sq ≤ tq ∧ tq ≤ mq + z * sq))) := by
  constructor
  · intro h
    unfold is_temp_normal
    rcases h with h | h | h
    · subst h; rfl
    · subst h
      cases m <;> rfl
    · subst h
      cases m with
      | nan => rfl
      | val mv => rw [if_pos (by simp [EFloat.isNan, EFloat.eqB])]
  · intro hsq
    unfold is_temp_normal
    rw [if_neg (by simp [EFloat.isNan, EFloat.eqB, hsq])]
    show (EFloat.leB (.val (mq - z * sq)) (.val tq)
        && EFloat.leB (.val tq) (.val (mq + z * sq))) = true ↔ _
    simp [EFloat.leB]

theorem C7_witness :
    is_temp_normal (.val 7) .nan .nan 2 = true ∧
    (is_temp_normal (.val 7) (.val 5) (.val 1) 2 = true ↔
      ((5 : ℚ) - 2 * 1 ≤ 7 ∧ (7 : ℚ) ≤ 5 + 2 * 1)) :=
  ⟨(C7_is_temp_normal_contract (.val 7) .nan .nan 2 7 5 1).1 (Or.inl rfl),
   (C7_is_temp_normal_contract (.val 7) .nan .nan 2 7 5 1).2 (by norm_num)⟩

/-- C8: `current_season_mean_std` is a pure lookup: it returns the season
mean/std pair stored on the first row matching the requested (city, season),
and (NaN, NaN) when no row matches. -/
theorem C8_point_query_is_cached_lookup (df : List SeasonRow) (c s : String) :
    (∀ r : SeasonRow,
        df.find? (fun x => x.city = c ∧ x.season = s) = some r →
          current_season_mean_std df c s = (r.season_mean, r.season_std)) ∧
    (df.find? (fun x => x.city = c ∧ x.season = s) = none →
        current_season_mean_std df c s = (.nan, .nan)) := by
  induction df with
  | nil =>
    constructor
    · intro r h
      simp [List.find?] at h
    · intro _
      rfl
  | cons a t ih =>
    by_cases hp : (a.city = c ∧ a.season = s)
    · have hb : (fun x : SeasonRow => decide (x.city = c ∧ x.season = s)) a = true := by
        simp only [decide_eq_true_eq]
        exact hp
      constructor
      · intro r h
        rw [@List.find?_cons_of_pos _ (fun x : SeasonRow => decide (x.city = c ∧ x.season = s))
          a t hb] at h
        injection h with h
        subst h
        unfold current_season_mean_std
        rw [List.filter_cons, if_pos hb]
      · intro h
        rw [@List.find?_cons_of_pos _ (fun x : SeasonRow => decide (x.city = c ∧ x.season = s))
          a t hb] at h
        cases h
    · have hb : ¬ ((fun x : SeasonRow => decide (x.city = c ∧ x.season = s)) a = true) := by
        simp only [decide_eq_true_eq]
        exact hp
      constructor
      · intro r h
        rw [@List.find?_cons_of_neg _ (fun x : SeasonRow => decide (x.city = c ∧ x.season = s))
          a t hb] at h
        have h2 := ih.1 r h
        unfold current_season_mean_std at h2 ⊢
        rw [List.filter_cons, if_neg hb]
        exact h2
      · intro h
        rw [@List.find?_cons_of_neg _ (fun x : SeasonRow => decide (x.city = c ∧ x.season = s))
          a t hb] at h
        have h2 := ih.2 h
        unfold current_season_mean_std at h2 ⊢
        rw [List.filter_cons, if_neg hb]
        exact h2

/-- Concrete frame for the C8 witness. -/
def dfW8 : List SeasonRow := [⟨⟨"A", 0, 10, "winter"⟩, .val 10, .nan⟩]

theorem C8_witness :
    current_season_mean_std dfW8 "A" "winter" = (EFloat.val 10, EFloat.nan) ∧
    current_season_mean_std dfW8 "NoSuchCity" "winter" = (.nan, .nan) :=
  ⟨(C8_point_query_is_cached_lookup dfW8 "A" "winter").1 ⟨⟨"A", 0, 10, "winter"⟩, .val 10, .nan⟩
      (by decide),
   (C8_point_query_is_cached_lookup dfW8 "NoSuchCity" "winter").2 (by decide)⟩

/-- C10: `mark_anomalies` preserves its input frame exactly — same rows, same
order, same values of every pre-existing column — and only appends the two
flag columns (the source works on a copy, so the caller's frame is untouched;
in this functional model that is expressed by the output determining the
input exactly). -/
theorem C10_mark_anomalies_frame_effect (df : List FeatRow) (z : ℚ) (ur : Bool) :
    (mark_anomalies df z ur).map (fun m => m.toFeatRow) = df := by
  induction df with
  | nil => rfl
  | cons a t ih =>
    show _ :: (mark_anomalies t z ur).map (fun m => m.toFeatRow) = a :: t
    rw [ih]

theorem countP_eq_one_of_nodup {α : Type} (a : α) (p : α → Bool)
    (hp : ∀ x, p x = true ↔ x = a) :
    ∀ l : List α, l.Nodup → a ∈ l → l.countP p = 1 := by
  intro l
  induction l with
  | nil => intro _ ha; cases ha
  | cons b t ih =>
    intro hnd ha
    rcases List.nodup_cons.mp hnd with ⟨hbn, hnd2⟩
    rw [List.countP_cons]
    rcases List.mem_cons.mp ha with h | h
    · subst h
      have hzero : t.countP p = 0 := by
        rw [List.countP_eq_zero]
        intro x hx hpx
        exact hbn ((hp x).mp hpx ▸ hx)
      rw [hzero, if_pos ((hp a).mpr rfl)]
    · have hpb : ¬ p b = true := by
        intro hpb
        exact hbn ((hp b).mp hpb ▸ h)
      rw [ih hnd2 h, if_neg hpb]

/-- C5: `add_season_stats` is a cardinality-1 left join: the output is the
input rows in the same number and order (with the aggregate columns
appended), and the per-(city, season) aggregate table holds exactly one row
matching each input row's key, so no row is dropped or duplicated. -/
theorem C5_season_join_cardinality_one (df : List Row) :
    ((add_season_stats df).map (fun r => r.toRow) = df) ∧
    (∀ r ∈ df, (season_stats df).countP
        (fun e => e.city = r.city ∧ e.season = r.season) = 1) := by
  constructor
  · unfold add_season_stats
    rw [List.map_map]
    conv_rhs => rw [← List.map_id df]
    refine List.map_congr_left ?_
    intro r _
    simp only [Function.comp, id]
    cases (season_stats df).find? (fun e => e.city = r.city ∧ e.season = r.season) <;> rfl
  · intro r hr
    unfold season_stats
    rw [List.countP_map]
    refine countP_eq_one_of_nodup ((r.city, r.season) : String × String) _ ?_ _
      (nodup_uniqueFirst _) ?_
    · intro k
      simp [Function.comp, Prod.ext_iff]
    · rw [mem_uniqueFirst]
      exact List.mem_map.mpr ⟨r, hr, rfl⟩

/-- Concrete dataset for the C5 witness. -/
def dfW5 : List Row := [⟨"A", 0, 10, "winter"⟩, ⟨"A", 1, 20, "winter"⟩]

theorem C5_witness :
    ((add_season_stats dfW5).map (fun r => r.toRow) = dfW5) ∧
    (season_stats dfW5).countP
      (fun e => e.city = "A" ∧ e.season = "winter") = 1 :=
  ⟨(C5_season_join_cardinality_one dfW5).1,
   (C5_season_join_cardinality_one dfW5).2 ⟨"A", 0, 10, "winter"⟩ (by decide)⟩

/-- The output of `add_rolling_stats` has exactly one row per input row. -/
theorem length_add_rolling_stats (df : List Row) (w : ℕ) :
    (add_rolling_stats df w).length = df.length := by
  rw [add_rolling_stats_eq_flatMap]
  have h := congrArg List.length (flatMap_cityRows (sortDf df) (sortDf_cityPairwise df))
  rw [List.length_flatMap] at h ⊢
  rw [← (sortDf_perm df).length_eq, ← h]
  refine congrArg _ (List.map_congr_left ?_)
  intro c _
  simp [Function.comp, length_processCity]

/-- C4: removing every row of another city B from the input leaves the
rolling_mean sequence that `add_rolling_stats` assigns to city A's rows
unchanged — the per-city windows are computed independently. -/
theorem C4_other_city_removal_invariant (df : List Row) (w : ℕ) (A B : String)
    (hAB : A ≠ B) :
    ((add_rolling_stats df w).filter (fun r => r.city = A)).map
        (fun r => r.rolling_mean) =
      ((add_rolling_stats (df.filter (fun r => ¬ r.city = B)) w).filter
          (fun r => r.city = A)).map (fun r => r.rolling_mean) := by
  rw [add_rolling_filter_city, add_rolling_filter_city]
  have h : cityRows (sortDf (df.filter (fun r => ¬ r.city = B))) A =
      cityRows (sortDf df) A := by
    unfold cityRows
    rw [sortDf_filter, List.filter_filter]
    refine List.filter_congr ?_
    intro x _
    by_cases hx : x.city = A
    · simp only [hx, decide_eq_true_eq]
      simp [hAB]
    · simp [hx]
  rw [h]

/-- Concrete interleaved two-city dataset for the C4 witness. -/
def dfW4 : List Row :=
  [⟨"A", 0, 10, "winter"⟩, ⟨"B", 0, 5, "winter"⟩,
   ⟨"A", 1, 20, "winter"⟩, ⟨"B", 1, 7, "winter"⟩]

theorem C4_witness :
    ((add_rolling_stats dfW4 2).filter (fun r => r.city = "A")).map
        (fun r => r.rolling_mean) =
      ((add_rolling_stats (dfW4.filter (fun r => ¬ r.city = "B")) 2).filter
          (fun r => r.city = "A")).map (fun r => r.rolling_mean) :=
  C4_other_city_removal_invariant dfW4 2 "A" "B" (by decide)

/-- Concrete dataset for the C2 counterexample: city "A" observed on days 0
and 2, so day 1 is missing. -/
def dfC2 : List Row := [⟨"A", 0, 10, "winter"⟩, ⟨"A", 2, 20, "winter"⟩]

/-- C2 counterexample: with `window_days = 2`, the spec's time-based window
for the second row of `dfC2` is the inclusive day interval [1, 2], which
contains only the second observation (temperature 20, mean 20); but the code
computes rolling_mean = 15, the mean of the trailing 2 rows regardless of
their dates.  The claimed time-based window rule is false: the source passes
an integer window to pandas, which makes it a fixed row-count window. -/
theorem C2_counterexample :
    (add_rolling_stats dfC2 2).map (fun r => r.rolling_mean) =
      [EFloat.nan, EFloat.val 15] ∧
    sortDf dfC2 = dfC2 ∧
    (specTimeWindow dfC2 2 1 (by decide)).map (fun o => o.temperature) = [20] ∧
    EFloat.val 15 ≠ EFloat.val (qmean [20]) := by
  have h12 : rowLe ⟨"A", 0, 10, "winter"⟩ ⟨"A", 2, 20, "winter"⟩ :=
    Or.inr ⟨rfl, by decide⟩
  have hsort : sortDf dfC2 = dfC2 := by
    simp [sortDf, dfC2, List.insertionSort, List.orderedInsert, h12]
  have hcity : cityRows dfC2 "A" = dfC2 := by decide
  refine ⟨?_, hsort, by decide, by norm_num [qmean]⟩
  rw [add_rolling_stats_def, hsort]
  norm_num [dfC2, uniqueFirst_cons, uniqueFirst_nil, hcity, cityRows, rollingMeanList,
    rollingStdList, List.range_succ, rollingMeanAt, rollingStdAt, windowAt, qmean,
    sampleVar, mkRolling, List.zipWith, List.zip, List.filter_cons]

/-- C2 amended: for every row of the output of `add_rolling_stats`, the
window is the trailing `window_days`-ROW window of the row's own city
partition (the most recent `window_days` same-city observations by position,
regardless of their dates); rolling_mean is NaN while the partition holds
fewer than `window_days` observations and otherwise the arithmetic mean of
the window, and rolling_std follows the same rule (additionally NaN for
`window_days < 2`), its value being the sample standard deviation
(denominator n-1, represented by the sample variance in this model). -/
theorem C2_amended_row_count_window (df : List Row) (w : ℕ) (i : ℕ)
    (hi : i < (add_rolling_stats df w).length) :
    ∃ c : String, ∃ j : ℕ, ∃ hj : j < (cityRows (sortDf df) c).length,
      ((add_rolling_stats df w).get ⟨i, hi⟩).toRow = (cityRows (sortDf df) c).get ⟨j, hj⟩ ∧
      (∀ o ∈ ((cityRows (sortDf df) c).take (j + 1)).drop (j + 1 - w), o.city = c) ∧
      ((add_rolling_stats df w).get ⟨i, hi⟩).rolling_mean =
        meanOfObs w (((cityRows (sortDf df) c).take (j + 1)).drop (j + 1 - w)) ∧
      ((add_rolling_stats df w).get ⟨i, hi⟩).rolling_std =
        stdOfObs w (((cityRows (sortDf df) c).take (j + 1)).drop (j + 1 - w)) := by
  have heq := add_rolling_stats_eq_flatMap df w
  have hi2 : i < ((uniqueFirst ((sortDf df).map (fun r => r.city))).flatMap
      (fun c => processCity w (cityRows (sortDf df) c))).length := by
    rw [← heq]; exact hi
  have hget : (add_rolling_stats df w).get ⟨i, hi⟩ =
      ((uniqueFirst ((sortDf df).map (fun r => r.city))).flatMap
        (fun c => processCity w (cityRows (sortDf df) c))).get ⟨i, hi2⟩ := by
    rw [List.get_eq_getElem, List.get_eq_getElem]
    exact List.getElem_of_eq heq hi
  rcases flatMap_get_decomp _ _ i hi2 with ⟨c, _, j, hj, hEq⟩
  have hj2 : j < (cityRows (sortDf df) c).length := by rwa [length_processCity] at hj
  have hsub : (((cityRows (sortDf df) c).take (j + 1)).drop (j + 1 - w)).Sublist
      (cityRows (sortDf df) c) :=
    (List.drop_sublist _ _).trans (List.take_sublist _ _)
  have hval : (add_rolling_stats df w).get ⟨i, hi⟩ =
      mkRolling ((cityRows (sortDf df) c).get ⟨j, hj2⟩)
        (rollingMeanAt w ((cityRows (sortDf df) c).map (fun r => r.temperature)) j,
         rollingStdAt w ((cityRows (sortDf df) c).map (fun r => r.temperature)) j) := by
    rw [hget, hEq]
    exact processCity_get w _ j hj2
  refine ⟨c, j, hj2, ?_, ?_, ?_, ?_⟩
  · rw [hval]
    rfl
  · intro o ho
    exact (mem_cityRows _ c o (List.Sublist.mem ho hsub)).2
  · rw [hval]
    exact rollingMeanAt_eq_meanOfObs w _ j hj2
  · rw [hval]
    exact rollingStdAt_eq_stdOfObs w _ j hj2

/-- Concrete dataset for the C2 amended witness. -/
def dfW2A : List Row := [⟨"A", 5, 42, "summer"⟩]

theorem C2_amended_witness :
    ∃ c : String, ∃ j : ℕ, ∃ hj : j < (cityRows (sortDf dfW2A) c).length,
      ((add_rolling_stats dfW2A 1).get
          ⟨0, by rw [length_add_rolling_stats]; decide⟩).toRow =
        (cityRows (sortDf dfW2A) c).get ⟨j, hj⟩ ∧
      (∀ o ∈ ((cityRows (sortDf dfW2A) c).take (j + 1)).drop (j + 1 - 1), o.city = c) ∧
      ((add_rolling_stats dfW2A 1).get
          ⟨0, by rw [length_add_rolling_stats]; decide⟩).rolling_mean =
        meanOfObs 1 (((cityRows (sortDf dfW2A) c).take (j + 1)).drop (j + 1 - 1)) ∧
      ((add_rolling_stats dfW2A 1).get
          ⟨0, by rw [length_add_rolling_stats]; decide⟩).rolling_std =
        stdOfObs 1 (((cityRows (sortDf dfW2A) c).take (j + 1)).drop (j + 1 - 1)) :=
  C2_amended_row_count_window dfW2A 1 0 (by rw [length_add_rolling_stats]; decide)

/-- Concrete dataset for the C3 counterexample: a city with 2 observations
and the default window of 30 days. -/
def dfC3 : List Row := [⟨"A", 0, 10, "winter"⟩, ⟨"A", 1, 20, "winter"⟩]

/-- C3 counterexample: the second row of `dfC3` has a window of 2
observations (under the spec's own time-window reading too: its time window
holds both rows), yet the code yields rolling_std = NaN, because with an
integer pandas window the std stays NaN until `window_days` (30)
observations accumulate — the 2-observation threshold claim is false. -/
theorem C3_counterexample :
    (add_rolling_stats dfC3 30).map (fun r => r.rolling_std) =
      [EFloat.nan, EFloat.nan] ∧
    sortDf dfC3 = dfC3 ∧
    (specTimeWindow dfC3 30 1 (by decide)).length = 2 := by
  have h12 : rowLe ⟨"A", 0, 10, "winter"⟩ ⟨"A", 1, 20, "winter"⟩ :=
    Or.inr ⟨rfl, by decide⟩
  have hsort : sortDf dfC3 = dfC3 := by
    simp [sortDf, dfC3, List.insertionSort, List.orderedInsert, h12]
  have hcity : cityRows dfC3 "A" = dfC3 := by decide
  refine ⟨?_, hsort, by decide⟩
  rw [add_rolling_stats_def, hsort]
  norm_num [dfC3, uniqueFirst_cons, uniqueFirst_nil, hcity, cityRows, rollingMeanList,
    rollingStdList, List.range_succ, rollingMeanAt, rollingStdAt, windowAt, qmean,
    sampleVar, mkRolling, List.zipWith, List.zip, List.filter_cons]

/-- C3 amended: rolling_std of a row is NaN exactly when its city partition
holds fewer than `window_days` observations up to and including the row (or
`window_days < 2`); the NaN warm-up ends at `window_days` same-city
observations, not at 2. -/
theorem C3_amended_std_nan_iff (df : List Row) (w : ℕ) (i : ℕ)
    (hi : i < (add_rolling_stats df w).length) :
    ∃ c : String, ∃ j : ℕ, ∃ hj : j < (cityRows (sortDf df) c).length,
      ((add_rolling_stats df w).get ⟨i, hi⟩).toRow = (cityRows (sortDf df) c).get ⟨j, hj⟩ ∧
      (((add_rolling_stats df w).get ⟨i, hi⟩).rolling_std = EFloat.nan ↔
        (j + 1 < w ∨ w < 2)) := by
  have heq := add_rolling_stats_eq_flatMap df w
  have hi2 : i < ((uniqueFirst ((sortDf df).map (fun r => r.city))).flatMap
      (fun c => processCity w (cityRows (sortDf df) c))).length := by
    rw [← heq]; exact hi
  have hget : (add_rolling_stats df w).get ⟨i, hi⟩ =
      ((uniqueFirst ((sortDf df).map (fun r => r.city))).flatMap
        (fun c => processCity w (cityRows (sortDf df) c))).get ⟨i, hi2⟩ := by
    rw [List.get_eq_getElem, List.get_eq_getElem]
    exact List.getElem_of_eq heq hi
  rcases flatMap_get_decomp _ _ i hi2 with ⟨c, _, j, hj, hEq⟩
  have hj2 : j < (cityRows (sortDf df) c).length := by rwa [length_processCity] at hj
  have hval : (add_rolling_stats df w).get ⟨i, hi⟩ =
      mkRolling ((cityRows (sortDf df) c).get ⟨j, hj2⟩)
        (rollingMeanAt w ((cityRows (sortDf df) c).map (fun r => r.temperature)) j,
         rollingStdAt w ((cityRows (sortDf df) c).map (fun r => r.temperature)) j) := by
    rw [hget, hEq]
    exact processCity_get w _ j hj2
  refine ⟨c, j, hj2, by rw [hval]; rfl, ?_⟩
  rw [hval]
  show rollingStdAt w _ j = EFloat.nan ↔ _
  unfold rollingStdAt
  by_cases h : j + 1 < w ∨ w < 2
  · simp [h]
  · simp [h]

/-- Concrete dataset for the C3 amended witness. -/
def dfW3A : List Row := [⟨"A", 9, 3, "autumn"⟩]

theorem C3_amended_witness :
    ∃ c : String, ∃ j : ℕ, ∃ hj : j < (cityRows (sortDf dfW3A) c).length,
      ((add_rolling_stats dfW3A 1).get
          ⟨0, by rw [length_add_rolling_stats]; decide⟩).toRow =
        (cityRows (sortDf dfW3A) c).get ⟨j, hj⟩ ∧
      (((add_rolling_stats dfW3A 1).get
          ⟨0, by rw [length_add_rolling_stats]; decide⟩).rolling_std = EFloat.nan ↔
        (j + 1 < 1 ∨ 1 < 2)) :=
  C3_amended_std_nan_iff dfW3A 1 0 (by rw [length_add_rolling_stats]; decide)

theorem mapM_option_isSome {α β : Type} (g : α → Option β) :
    ∀ l : List α, (l.mapM g).isSome = true ↔ ∀ a ∈ l, (g a).isSome = true := by
  intro l
  induction l with
  | nil =>
    constructor
    · intro _ a ha
      cases ha
    · intro _
      rfl
  | cons a t ih =>
    rw [List.mapM_cons]
    cases hga : g a with
    | none => simp [hga]
    | some b =>
      cases hmt : t.mapM g with
      | none =>
        rw [hmt] at ih
        simp only [Option.isSome_none, Bool.false_eq_true, false_iff] at ih
        simp [hga, hmt, ih]
      | some bs =>
        rw [hmt] at ih
        simp only [Option.isSome_some, true_iff] at ih
        simp [hga, hmt]
        exact ih

/-- Concrete frame for the C9 counterexample: only a `timestamp` column,
no `city` and no `temperature`. -/
def frameC9 : Frame := ⟨["timestamp"], [[Cell.date ⟨0, ⟨0, by decide⟩⟩]]⟩

/-- C9 counterexample: a source missing both the `city` and the
`temperature` column loads without any error — `load_data` only ever touches
the `timestamp` column, so the claimed MalformedInputError for a missing
city/temperature column (or an unparseable temperature) is never raised; in
fact no `MalformedInputError` class exists in the source at all. -/
theorem C9_counterexample :
    (∃ g, load_data frameC9 = Except.ok g) ∧
      "city" ∉ frameC9.header ∧ "temperature" ∉ frameC9.header := by
  refine ⟨⟨⟨["timestamp", "season"],
    [[Cell.date ⟨0, ⟨0, by decide⟩⟩, Cell.text "winter"]]⟩, by rfl⟩, by decide, by decide⟩

/-- C9 amended: `load_data` fails exactly when the `timestamp` column is
absent (a KeyError, not a MalformedInputError, which does not exist in the
source) or some cell of it is not datetime-parseable; a missing `city` or
`temperature` column, or unparseable temperatures, are never detected. -/
theorem C9_amended_load_error_conditions (f : Frame) :
    (∃ g, load_data f = Except.ok g) ↔
      (∃ j, f.header.findIdx? (fun c => c = "timestamp") = some j ∧
        ∀ row ∈ f.rows, (toDatetime (row.getD j (Cell.text ""))).isSome = true) := by
  unfold load_data
  cases hidx : f.header.findIdx? (fun c => c = "timestamp") with
  | none => simp
  | some j =>
    dsimp only
    cases hmap : f.rows.mapM (fun row => toDatetime (row.getD j (Cell.text ""))) with
    | none =>
      dsimp only
      constructor
      · rintro ⟨g, hg⟩
        cases hg
      · rintro ⟨j2, hj2, hall⟩
        injection hj2 with hj2
        subst hj2
        have hs := (mapM_option_isSome _ f.rows).mpr hall
        rw [hmap] at hs
        cases hs
    | some tss =>
      dsimp only
      constructor
      · intro _
        refine ⟨j, rfl, (mapM_option_isSome _ f.rows).mp ?_⟩
        rw [hmap]
        rfl
      · intro _
        by_cases hseason : "season" ∈ f.header
        · exact ⟨_, by rw [if_pos hseason]⟩
        · exact ⟨_, by rw [if_neg hseason]⟩
